import Mathlib

/-!
Shallow embedding of parts of the go-packages repository:
  - i18n/languages (languages.go): Language, Translation, Add, Get, T, TranslateFunc
  - sessions: Session flash queue (AddFlash, FlashAll)
  - params (parser.go): Parse, the type-switch string-to-field decoder

Conventions of the embedding:
  - Go maps with string keys become association lists with map semantics
    (lookup returns the first binding; set replaces the existing binding).
  - Fallible Go code returns Except; a Go panic is modelled by a dedicated
    result constructor so that panicking and returning an error stay distinct.
  - Machine integers are Int/Nat with explicit range checks where the Go
    standard library performs them.
-/

/-- Equality of Except values is decidable when it is so on both sides. -/
instance {ε α : Type} [DecidableEq ε] [DecidableEq α] : DecidableEq (Except ε α) := fun x y =>
  match x, y with
  | .error a, .error b =>
    if h : a = b then .isTrue (by rw [h]) else .isFalse (fun hh => h (Except.error.inj hh))
  | .error _, .ok _ => .isFalse (fun hh => Except.noConfusion hh)
  | .ok _, .error _ => .isFalse (fun hh => Except.noConfusion hh)
  | .ok a, .ok b =>
    if h : a = b then .isTrue (by rw [h]) else .isFalse (fun hh => h (Except.ok.inj hh))

namespace GoPackages

/-! ## A model of the text/template subset used by i18n/languages

The repository parses translation strings with text/template and executes
them against a map with string keys.  Translations in this repository use
only literal text and field actions of the shape double-open-brace .Name
double-close-brace, so the model covers exactly that subset: literal text
interleaved with field actions.  An action that is not of that shape, or an
unclosed action, is a parse error (as it is in text/template for the inputs
considered here).  Executing a field action looks the name up in the data
map; a missing key (or absent data map) renders the text/template
placeholder output for a nil interface value. -/

/-- The opening brace character. -/
def lb : Char := Char.ofNat 123

/-- The closing brace character. -/
def rb : Char := Char.ofNat 125

/-- A parsed template node: literal text or a field action. -/
inductive Node where
  | text (s : String) : Node
  | field (name : String) : Node
deriving DecidableEq, Repr

/-- A parsed template: a list of nodes, rendered in order. -/
abbrev Template := List Node

/-- Template data: the model of a Go map with string keys and string values. -/
abbrev TemplateData := List (String × String)

/-- Scan a character list for the first occurrence of a double opening brace.
Returns the characters before it, and the characters after it when found. -/
def splitOpen : List Char → List Char × Option (List Char)
  | [] => ([], none)
  | [c] => ([c], none)
  | c1 :: c2 :: rest =>
    if c1 = lb ∧ c2 = lb then ([], some rest)
    else
      let (pre, post) := splitOpen (c2 :: rest)
      (c1 :: pre, post)

/-- Scan a character list for the first occurrence of a double closing brace.
Returns the characters before it, and the characters after it when found. -/
def splitClose : List Char → List Char × Option (List Char)
  | [] => ([], none)
  | [c] => ([c], none)
  | c1 :: c2 :: rest =>
    if c1 = rb ∧ c2 = rb then ([], some rest)
    else
      let (pre, post) := splitClose (c2 :: rest)
      (c1 :: pre, post)

/-- Is the character valid inside a field name (letter, digit or underscore)? -/
def isIdentChar (c : Char) : Bool :=
  c.isAlpha || c.isDigit || c = Char.ofNat 95

/-- Parse the interior of an action: optional surrounding spaces, then a dot
followed by a nonempty identifier.  Anything else is a parse error, as it is
for the template strings this repository uses. -/
def parseAction (cs : List Char) : Except String Node :=
  let trimmed := (cs.dropWhile (· = ' ')).reverse.dropWhile (· = ' ') |>.reverse
  match trimmed with
  | [] => .error "missing value for command"
  | c :: rest =>
    if c = '.' ∧ rest ≠ [] ∧ rest.all isIdentChar then
      .ok (Node.field (String.mk rest))
    else
      .error "unexpected command"

/-- Parse the remainder of a template after a double opening brace was
consumed: find the closing braces, parse the action, continue. -/
def parseRest (cs : List Char) (fuel : Nat) : Except String (List Node) :=
  match fuel with
  | 0 => .error "out of fuel"
  | fuel + 1 =>
    match splitClose cs with
    | (_, none) => .error "unclosed action"
    | (actionChars, some rest) => do
      let node ← parseAction actionChars
      let (pre, post) := splitOpen rest
      match post with
      | none => .ok [node, Node.text (String.mk pre)]
      | some rest2 => do
        let tail ← parseRest rest2 fuel
        .ok (node :: Node.text (String.mk pre) :: tail)

/-- Parse a template string into a Template, following text/template on the
subset described above. -/
def parseTemplate (s : String) : Except String Template :=
  let cs := s.toList
  match splitOpen cs with
  | (_, none) => .ok [Node.text s]
  | (pre, some rest) => do
    let tail ← parseRest rest (cs.length + 1)
    .ok (Node.text (String.mk pre) :: tail)

/-- Look a key up in the template data (Go map read: first binding wins). -/
def lookupData : TemplateData → String → Option String
  | [], _ => none
  | (k, v) :: rest, key => if k = key then some v else lookupData rest key

/-- What text/template prints for a missing map entry (a nil interface). -/
def noValue : String := "<no value>"

/-- Render one node against the data map. -/
def execNode (data : TemplateData) : Node → String
  | Node.text s => s
  | Node.field name =>
    match lookupData data name with
    | some v => v
    | none => noValue

/-- Execute a template against the data map, concatenating the rendered
nodes.  For map data this never fails, so the log.Fatalf branch guarding
execution errors in the Go code is unreachable in the model. -/
def executeTemplate (t : Template) (data : TemplateData) : String :=
  match t with
  | [] => ""
  | node :: rest => execNode data node ++ executeTemplate rest data

/-! ## i18n/languages: Language, Translation and resolution

Embedding of src/i18n/languages/languages.go.  The file contains two
historical variants of the package; the embedding covers the variant whose
Language carries a Fallbacks field and resolves through Language.T, and the
earlier TranslateFunc variant, whose lookup loop is identical but receives
the fallback list as an argument.  The Go translations map becomes an
association list with map lookup semantics. -/

/-- A Translation stores per-plural-category templates; only the Other
variant is ever consulted by the code, so the model stores just that one. -/
structure Translation where
  other : Template
deriving DecidableEq

/-- Map read on the translations map: first binding for the key. -/
def mapGet {α : Type} : List (String × α) → String → Option α
  | [], _ => none
  | (k0, v0) :: rest, k => if k0 = k then some v0 else mapGet rest k

/-- Map write on the translations map: replace the binding for the key if
present, otherwise add one. -/
def mapSet {α : Type} : List (String × α) → String → α → List (String × α)
  | [], k, v => [(k, v)]
  | (k0, v0) :: rest, k, v =>
    if k0 = k then (k, v) :: rest else (k0, v0) :: mapSet rest k v

/-- A Language: code, name, fallback languages and the translations map.
Recursive because a fallback is itself a Language. -/
inductive Language where
  | mk (code : String) (name : String) (fallbacks : List Language)
       (translations : List (String × Translation)) : Language

/-- The language code. -/
def Language.code : Language → String
  | .mk c _ _ _ => c

/-- The language name. -/
def Language.name : Language → String
  | .mk _ n _ _ => n

/-- The fallback languages (the Fallbacks field). -/
def Language.fallbacks : Language → List Language
  | .mk _ _ f _ => f

/-- The translations map. -/
def Language.translations : Language → List (String × Translation)
  | .mk _ _ _ t => t

/-- NewLanguage: a fresh Language with empty translations and no
fallbacks. -/
def NewLanguage (code name : String) : Language :=
  Language.mk code name [] []

/-- Assigning to the public Fallbacks field. -/
def Language.setFallbacks : Language → List Language → Language
  | .mk c n _ t, f => .mk c n f t

/-- Get retrieves a translation; a missing id yields none (Go nil). -/
def Language.Get (l : Language) (translationID : String) : Option Translation :=
  mapGet l.translations translationID

/-- Outcome of Language.Add: either the updated language together with the
stored translation, or a panic.  The Go method has no error return; a parse
failure panics, which the model records with a dedicated constructor so a
panic is distinguishable from a recoverable error result. -/
inductive AddResult where
  | ok (lang : Language) (t : Translation) : AddResult
  | panicked (msg : String) : AddResult

/-- Add parses the translation template, panics on a parse error, and
otherwise stores the translation under translationID (replacing any
existing one).  On panic the receiver is left unchanged: the map write
happens only after a successful parse. -/
def Language.Add (l : Language) (translationID translation : String) : AddResult :=
  match parseTemplate translation with
  | .error e =>
    .panicked ("languages.Add: Parsing translation template failed: " ++ e)
  | .ok tmpl =>
    let t : Translation := { other := tmpl }
    .ok (.mk l.code l.name l.fallbacks (mapSet l.translations translationID t)) t

/-- The lookup loop shared by T and TranslateFunc: the first language in
the list that has the translation wins.  The Go loop renders the template
inside the loop body; since rendering is pure, finding first and rendering
after is the same computation. -/
def findTranslation : List Language → String → Option Translation
  | [], _ => none
  | lang :: rest, id =>
    match lang.Get id with
    | some tr => some tr
    | none => findTranslation rest id

/-- T: resolve translationID on the language itself, then on its Fallbacks
in stored order; render the found translation against the first data
argument; return translationID itself when nothing is found.  Go leaves
templateData as a nil map when args is empty, which reads like an empty
map, so the model uses the first argument or the empty list. -/
def Language.T (l : Language) (translationID : String)
    (args : List TemplateData) : String :=
  let templateData := args.headD []
  let languages := l :: l.fallbacks
  match findTranslation languages translationID with
  | some tr => executeTemplate tr.other templateData
  | none => translationID

/-- The earlier TranslateFunc variant: the fallback list is supplied as an
argument instead of being a field, and the lookup list is the receiver
followed by the supplied fallbacks; the loop body is the same. -/
def Language.translateFunc (l : Language) (fallbackLanguages : List Language)
    (translationId : String) (args : List TemplateData) : String :=
  let templateData := args.headD []
  let languages := l :: fallbackLanguages
  match findTranslation languages translationId with
  | some tr => executeTemplate tr.other templateData
  | none => translationId

/-- T with explicit state passing: returns the rendered string together
with the receiver as the call leaves it.  The Go method never assigns to
any field of the receiver or of a fallback, so the resulting receiver is
the argument itself; the definition makes that observable. -/
def Language.Tst (l : Language) (translationID : String)
    (args : List TemplateData) : String × Language :=
  (l.T translationID args, l)

/-! ## sessions: the flash queue

Embedding of the Session struct variant with a public Flashes slice
(AddFlash, FlashAll).  The session store and the Values bag involve
interfaces and I/O and are not needed by the flash-queue claims; the
remaining scalar fields are carried along, with time.Time modelled as a
Nat timestamp. -/

/-- A flash message: message text and a type tag. -/
structure Flash where
  message : String
  type : String
deriving DecidableEq

/-- A Session, restricted to its data fields.  Flashes is the FIFO queue
of pending flash messages. -/
structure Session where
  dateCreated : Nat
  flashes : List Flash
  id : String
  isStored : Bool
  userId : String
deriving DecidableEq

/-- AddFlash appends a flash to the Flashes slice; the variadic flashType
contributes its first element as the type tag, or the empty string. -/
def Session.AddFlash (s : Session) (message : String) (flashType : List String) : Session :=
  { s with flashes := s.flashes ++ [{ message := message, type := flashType.headD "" }] }

/-- FlashAll returns all flashes and removes them from the session: the
current slice is returned and replaced by an empty one (when it is already
empty it is returned as is). -/
def Session.FlashAll (s : Session) : List Flash × Session :=
  if s.flashes.length = 0 then
    (s.flashes, s)
  else
    (s.flashes, { s with flashes := [] })

/-! ## params: the reflective parameter decoder

Embedding of src/params/parser.go.  Parse iterates over the destination
struct fields in declaration order; the model represents the destination
as the list of fields, each given by the Go type-name string the switch
dispatches on together with the parameter values found for the field (the
result of Parser.param: router parameters, then form values).  A field
with no values is skipped.  The decoded result of each processed field is
recorded; none marks a skipped field.  The strconv calls are modelled
below with base-10 syntax and the range checks Go performs; float values
are carried as exact rationals, which agrees with Go on every input these
claims touch. -/

/-- Decoded field contents, one constructor per family of the switch. -/
inductive FieldValue where
  | b (x : Bool) : FieldValue
  | f (x : Rat) : FieldValue
  | i (x : Int) : FieldValue
  | s (x : String) : FieldValue
  | u (x : Nat) : FieldValue
  | bl (xs : List Bool) : FieldValue
  | fl (xs : List Rat) : FieldValue
  | il (xs : List Int) : FieldValue
  | sl (xs : List String) : FieldValue
  | ul (xs : List Nat) : FieldValue
deriving DecidableEq

/-- Digits of a base-10 numeral to a Nat; none when a character is not a
digit or the list is empty. -/
def digitsToNat : List Char → Option Nat
  | [] => none
  | [c] => if c.isDigit then some (c.toNat - 48) else none
  | c :: rest =>
    if c.isDigit then
      match digitsToNat rest with
      | some n => some ((c.toNat - 48) * 10 ^ rest.length + n)
      | none => none
    else none

/-- strconv.ParseInt with base 10: optional sign, nonempty digits, and the
signed range check for the given bit size (0 means the platform int size,
64 here). -/
def parseIntGo (s : String) (bitSize : Nat) : Except String Int :=
  let b := if bitSize = 0 then 64 else bitSize
  let cs := s.toList
  let signed : Bool × List Char :=
    match cs with
    | c :: rest => if c = '-' then (true, rest) else if c = '+' then (false, rest) else (false, cs)
    | [] => (false, [])
  match digitsToNat signed.2 with
  | none => .error ("strconv.ParseInt: parsing " ++ s ++ ": invalid syntax")
  | some n =>
    let v : Int := if signed.1 then -(n : Int) else (n : Int)
    if v < -(2 ^ (b - 1) : Int) ∨ (2 ^ (b - 1) : Int) - 1 < v then
      .error ("strconv.ParseInt: parsing " ++ s ++ ": value out of range")
    else .ok v

/-- strconv.ParseUint with base 10: no sign permitted, nonempty digits,
and the unsigned range check for the given bit size (0 means 64 here). -/
def parseUintGo (s : String) (bitSize : Nat) : Except String Nat :=
  let b := if bitSize = 0 then 64 else bitSize
  match digitsToNat s.toList with
  | none => .error ("strconv.ParseUint: parsing " ++ s ++ ": invalid syntax")
  | some n =>
    if 2 ^ b - 1 < n then
      .error ("strconv.ParseUint: parsing " ++ s ++ ": value out of range")
    else .ok n

/-- Split a character list at the first exponent marker e or E. -/
def splitExp : List Char → List Char × Option (List Char)
  | [] => ([], none)
  | c :: rest =>
    if c = 'e' ∨ c = 'E' then ([], some rest)
    else
      let (pre, post) := splitExp rest
      (c :: pre, post)

/-- Parse a decimal mantissa: optional sign, digits with at most one dot,
at least one digit overall.  Returns the signed integer numerator and the
count of fractional digits, so that the value is the numerator divided by
ten to that count. -/
def parseMantissa (cs : List Char) : Option (Int × Nat) :=
  let signed : Bool × List Char :=
    match cs with
    | c :: rest => if c = '-' then (true, rest) else if c = '+' then (false, rest) else (false, cs)
    | [] => (false, [])
  let intPart := signed.2.takeWhile Char.isDigit
  let rest := signed.2.drop intPart.length
  let build (frac : List Char) : Option (Int × Nat) :=
    if intPart.length + frac.length = 0 then none
    else
      match digitsToNat (intPart ++ frac) with
      | some n => some (if signed.1 then -(n : Int) else (n : Int), frac.length)
      | none => none
  match rest with
  | [] => build []
  | c :: rest2 =>
    if c = '.' ∧ rest2.all Char.isDigit then build rest2 else none

/-- strconv.ParseFloat, restricted to decimal syntax (no hex floats, Inf
or NaN, which no claim touches): optional sign, digits with optional dot,
optional exponent.  The value is exact rational arithmetic; the overflow
check uses the limit above which Go certainly returns an out-of-range
error.  Go treats every bit size other than 32 as 64. -/
def parseFloatGo (s : String) (bitSize : Nat) : Except String Rat :=
  let limitNum : Nat :=
    if bitSize = 32 then 2 ^ 128
    else (2 ^ 256) * (2 ^ 256) * (2 ^ 256) * (2 ^ 256)
  let (mant, exp?) := splitExp s.toList
  let value : Option Rat :=
    match parseMantissa mant with
    | none => none
    | some (m, k) =>
      match exp? with
      | none => some (mkRat m (10 ^ k))
      | some expChars =>
        let esigned : Bool × List Char :=
          match expChars with
          | c :: rest => if c = '-' then (true, rest) else if c = '+' then (false, rest) else (false, expChars)
          | [] => (false, [])
        match digitsToNat esigned.2 with
        | none => none
        | some e =>
          if esigned.1 then some (mkRat m (10 ^ k * 10 ^ e))
          else some (mkRat (m * ((10 ^ e : Nat) : Int)) (10 ^ k))
  match value with
  | none => .error ("strconv.ParseFloat: parsing " ++ s ++ ": invalid syntax")
  | some v =>
    if v ≤ mkRat (-(limitNum : Int)) 1 ∨ mkRat ((limitNum : Int)) 1 ≤ v then
      .error ("strconv.ParseFloat: parsing " ++ s ++ ": value out of range")
    else .ok v

/-- Truncation of a rational toward zero: the Go conversion from a float
to an integer type for values in the target range.  For out-of-range
values the Go conversion is implementation-defined; the model keeps the
truncated mathematical value (no claim depends on that case). -/
def ratTrunc (q : Rat) : Int :=
  if 0 ≤ q.num then ((q.num.toNat / q.den : Nat) : Int)
  else -(((-q.num).toNat / q.den : Nat) : Int)

/-- The z helper: an empty parameter value reads as the numeral 0. -/
def z (value : String) : String :=
  if value = "" then "0" else value

/-- ASCII lowercasing of one character (strings.ToLower also folds other
scripts, which no parameter value in the claims uses). -/
def charToLower (c : Char) : Char :=
  if 65 ≤ c.toNat ∧ c.toNat ≤ 90 then Char.ofNat (c.toNat + 32) else c

/-- strings.ToLower on the ASCII subset. -/
def goToLower (s : String) : String :=
  String.mk (s.toList.map charToLower)

/-- The Go bool coercion: lowercase the value and compare. -/
def goBool (value : String) : Bool :=
  let s := goToLower value
  s == "1" || s == "true" || s == "yes"

/-- Map an element decoder over the values of a slice field, stopping at
the first error, as the Go loops do. -/
def decodeEach {α : Type} (dec : String → Except String α) :
    List String → Except String (List α)
  | [] => .ok []
  | v :: rest =>
    match dec v with
    | .error e => .error e
    | .ok x =>
      match decodeEach dec rest with
      | .error e => .error e
      | .ok xs => .ok (x :: xs)

/-- The switch over the field type name of parser.go, for a field whose
parameter values are nonempty (the caller skips empty ones).  Scalar cases
use the first value.  Note the slice integer and unsigned cases call
strconv.ParseFloat with the bit width in the bitSize slot, exactly as the
source does, and then convert the float to the element type. -/
def convertField (typeName : String) (paramValues : List String) : Except String FieldValue :=
  let v0 := paramValues.headD ""
  if typeName = "bool" then .ok (FieldValue.b (goBool v0))
  else if typeName = "float32" then
    match parseFloatGo (z v0) 32 with
    | .error e => .error e
    | .ok x => .ok (FieldValue.f x)
  else if typeName = "float64" then
    match parseFloatGo (z v0) 64 with
    | .error e => .error e
    | .ok x => .ok (FieldValue.f x)
  else if typeName = "int" then
    match parseIntGo (z v0) 0 with
    | .error e => .error e
    | .ok x => .ok (FieldValue.i x)
  else if typeName = "int8" then
    match parseIntGo (z v0) 8 with
    | .error e => .error e
    | .ok x => .ok (FieldValue.i x)
  else if typeName = "int16" then
    match parseIntGo (z v0) 16 with
    | .error e => .error e
    | .ok x => .ok (FieldValue.i x)
  else if typeName = "int32" then
    match parseIntGo (z v0) 32 with
    | .error e => .error e
    | .ok x => .ok (FieldValue.i x)
  else if typeName = "int64" then
    match parseIntGo (z v0) 64 with
    | .error e => .error e
    | .ok x => .ok (FieldValue.i x)
  else if typeName = "string" then .ok (FieldValue.s v0)
  else if typeName = "uint" then
    match parseUintGo (z v0) 0 with
    | .error e => .error e
    | .ok x => .ok (FieldValue.u x)
  else if typeName = "uint8" then
    match parseUintGo (z v0) 8 with
    | .error e => .error e
    | .ok x => .ok (FieldValue.u x)
  else if typeName = "uint16" then
    match parseUintGo (z v0) 16 with
    | .error e => .error e
    | .ok x => .ok (FieldValue.u x)
  else if typeName = "uint32" then
    match parseUintGo (z v0) 32 with
    | .error e => .error e
    | .ok x => .ok (FieldValue.u x)
  else if typeName = "uint64" then
    match parseUintGo (z v0) 64 with
    | .error e => .error e
    | .ok x => .ok (FieldValue.u x)
  else if typeName = "[]bool" then
    .ok (FieldValue.bl (paramValues.map goBool))
  else if typeName = "[]float32" then
    match decodeEach (fun v => parseFloatGo (z v) 32) paramValues with
    | .error e => .error e
    | .ok xs => .ok (FieldValue.fl xs)
  else if typeName = "[]float64" then
    match decodeEach (fun v => parseFloatGo (z v) 64) paramValues with
    | .error e => .error e
    | .ok xs => .ok (FieldValue.fl xs)
  else if typeName = "[]int" then
    match decodeEach (fun v => parseFloatGo (z v) 0) paramValues with
    | .error e => .error e
    | .ok xs => .ok (FieldValue.il (xs.map ratTrunc))
  else if typeName = "[]int8" then
    match decodeEach (fun v => parseFloatGo (z v) 8) paramValues with
    | .error e => .error e
    | .ok xs => .ok (FieldValue.il (xs.map ratTrunc))
  else if typeName = "[]int16" then
    match decodeEach (fun v => parseFloatGo (z v) 16) paramValues with
    | .error e => .error e
    | .ok xs => .ok (FieldValue.il (xs.map ratTrunc))
  else if typeName = "[]int32" then
    match decodeEach (fun v => parseFloatGo (z v) 32) paramValues with
    | .error e => .error e
    | .ok xs => .ok (FieldValue.il (xs.map ratTrunc))
  else if typeName = "[]int64" then
    match decodeEach (fun v => parseFloatGo (z v) 64) paramValues with
    | .error e => .error e
    | .ok xs => .ok (FieldValue.il (xs.map ratTrunc))
  else if typeName = "[]string" then .ok (FieldValue.sl paramValues)
  else if typeName = "[]uint" then
    match decodeEach (fun v => parseFloatGo (z v) 0) paramValues with
    | .error e => .error e
    | .ok xs => .ok (FieldValue.ul (xs.map (fun q => (ratTrunc q).toNat)))
  else if typeName = "[]uint8" then
    match decodeEach (fun v => parseFloatGo (z v) 8) paramValues with
    | .error e => .error e
    | .ok xs => .ok (FieldValue.ul (xs.map (fun q => (ratTrunc q).toNat)))
  else if typeName = "[]uint16" then
    match decodeEach (fun v => parseFloatGo (z v) 16) paramValues with
    | .error e => .error e
    | .ok xs => .ok (FieldValue.ul (xs.map (fun q => (ratTrunc q).toNat)))
  else if typeName = "[]uint32" then
    match decodeEach (fun v => parseFloatGo (z v) 32) paramValues with
    | .error e => .error e
    | .ok xs => .ok (FieldValue.ul (xs.map (fun q => (ratTrunc q).toNat)))
  else if typeName = "[]uint64" then
    match decodeEach (fun v => parseFloatGo (z v) 64) paramValues with
    | .error e => .error e
    | .ok xs => .ok (FieldValue.ul (xs.map (fun q => (ratTrunc q).toNat)))
  else .error ("unsupported field type " ++ typeName)

/-- The type names the switch supports. -/
def supportedTypeNames : List String :=
  ["bool", "float32", "float64", "int", "int8", "int16", "int32", "int64",
   "string", "uint", "uint8", "uint16", "uint32", "uint64",
   "[]bool", "[]float32", "[]float64", "[]int", "[]int8", "[]int16",
   "[]int32", "[]int64", "[]string", "[]uint", "[]uint8", "[]uint16",
   "[]uint32", "[]uint64"]

/-- The numeric type names among them, scalar and slice. -/
def numericTypeNames : List String :=
  ["float32", "float64", "int", "int8", "int16", "int32", "int64",
   "uint", "uint8", "uint16", "uint32", "uint64",
   "[]float32", "[]float64", "[]int", "[]int8", "[]int16",
   "[]int32", "[]int64", "[]uint", "[]uint8", "[]uint16",
   "[]uint32", "[]uint64"]

/-- The zero FieldValue each numeric type name decodes the empty string
to (a statement helper for the empty-value claim, not source code). -/
def numericZero (typeName : String) : FieldValue :=
  if typeName = "float32" ∨ typeName = "float64" then FieldValue.f 0
  else if typeName = "int" ∨ typeName = "int8" ∨ typeName = "int16"
      ∨ typeName = "int32" ∨ typeName = "int64" then FieldValue.i 0
  else if typeName = "uint" ∨ typeName = "uint8" ∨ typeName = "uint16"
      ∨ typeName = "uint32" ∨ typeName = "uint64" then FieldValue.u 0
  else if typeName = "[]float32" ∨ typeName = "[]float64" then FieldValue.fl [0]
  else if typeName = "[]int" ∨ typeName = "[]int8" ∨ typeName = "[]int16"
      ∨ typeName = "[]int32" ∨ typeName = "[]int64" then FieldValue.il [0]
  else FieldValue.ul [0]

/-- Parse: walk the fields in order; skip a field with no parameter
values (recorded as none); decode the others through the switch; the
first switch error aborts with that error. -/
def Parse : List (String × List String) → Except String (List (Option FieldValue))
  | [] => .ok []
  | (typeName, vals) :: rest =>
    if vals.isEmpty then
      match Parse rest with
      | .error e => .error e
      | .ok tail => .ok (none :: tail)
    else
      match convertField typeName vals with
      | .error e => .error e
      | .ok fv =>
        match Parse rest with
        | .error e => .error e
        | .ok tail => .ok (some fv :: tail)

/-! ## Concrete fixtures used by the witnesses -/

/-- A Spanish language owning the farewell translation. -/
def esW : Language :=
  Language.mk "es" "Spanish" []
    [("farewell", { other := [Node.text "Adios ", Node.field "Name"] })]

/-- An English language with no translations. -/
def enW : Language := Language.mk "en" "English" [] []

/-- A German language with fallbacks English then Spanish, owning only the
greeting translation. -/
def deW : Language :=
  Language.mk "de" "German" [enW, esW]
    [("greeting", { other := [Node.text "Hallo ", Node.field "Name"] })]

end GoPackages

namespace GoPackages

/-! ## Helper lemmas -/

/-- Appending the empty string on the right changes nothing. -/
theorem str_append_empty (s : String) : s ++ "" = s := by
  cases s
  show String.mk _ = String.mk _
  simp [String.append]

/-- A fresh binding is found by a subsequent map read of the same key. -/
theorem mapGet_mapSet_self {α : Type} (m : List (String × α)) (k : String) (v : α) :
    mapGet (mapSet m k v) k = some v := by
  induction m with
  | nil => simp [mapSet, mapGet]
  | cons p rest ih =>
    obtain ⟨k0, v0⟩ := p
    by_cases h : k0 = k
    · simp [mapSet, h, mapGet]
    · simp [mapSet, h, mapGet, ih]

/-- The lookup loop finds nothing when no language in the list has the
translation. -/
theorem findTranslation_eq_none (langs : List Language) (k : String)
    (h : ∀ lang ∈ langs, lang.Get k = none) :
    findTranslation langs k = none := by
  induction langs with
  | nil => rfl
  | cons lang rest ih =>
    have h0 : lang.Get k = none := h lang (List.mem_cons_self lang rest)
    have hrest : ∀ l2 ∈ rest, l2.Get k = none := fun l2 hl2 => h l2 (List.mem_cons_of_mem _ hl2)
    simp [findTranslation, h0, ih hrest]

/-- The lookup loop takes the head language when it has the translation. -/
theorem findTranslation_cons_some (lang : Language) (rest : List Language)
    (k : String) (tr : Translation) (h : lang.Get k = some tr) :
    findTranslation (lang :: rest) k = some tr := by
  simp [findTranslation, h]

/-- A template string with no action opener parses as its own single
literal node. -/
theorem parseTemplate_no_placeholder (t : String)
    (h : (splitOpen t.toList).2 = none) :
    parseTemplate t = .ok [Node.text t] := by
  unfold parseTemplate
  rcases hso : splitOpen t.toList with ⟨pre, post⟩
  rcases post with _ | rest
  · have hso2 : splitOpen t.data = (pre, none) := hso
    simp [hso2]
  · rw [hso] at h
    simp at h

/-! ## The claims -/

/-- C1: a Language L without key K whose fallback chain is F1 then F2,
where F1 also lacks K and F2 has K, resolves K to the rendering of the F2
translation, identical to resolving K directly on F2; the stored order is
searched with L itself first, first match wins.  Both resolution variants
(Language.T over the Fallbacks field, and the TranslateFunc closure over a
supplied fallback list) agree. -/
theorem C1_fallback_chain_resolution (l f1 f2 : Language) (k : String)
    (args : List TemplateData) (tr : Translation)
    (hfb : l.fallbacks = [f1, f2])
    (hl : l.Get k = none) (hf1 : f1.Get k = none) (hf2 : f2.Get k = some tr) :
    l.T k args = executeTemplate tr.other (args.headD [])
  ∧ l.T k args = f2.T k args
  ∧ l.translateFunc [f1, f2] k args = f2.translateFunc [] k args := by
  unfold Language.T Language.translateFunc
  rw [hfb]
  simp [findTranslation, hl, hf1, hf2]

/-- Witness for C1 at the concrete German/English/Spanish chain. -/
theorem C1_witness :
    deW.T "farewell" [[("Name", "Christian")]]
      = executeTemplate [Node.text "Adios ", Node.field "Name"]
          ([[("Name", "Christian")]].headD ([] : TemplateData))
  ∧ deW.T "farewell" [[("Name", "Christian")]] = esW.T "farewell" [[("Name", "Christian")]]
  ∧ deW.translateFunc [enW, esW] "farewell" [[("Name", "Christian")]]
      = esW.translateFunc [] "farewell" [[("Name", "Christian")]] :=
  C1_fallback_chain_resolution deW enW esW "farewell" [[("Name", "Christian")]]
    { other := [Node.text "Adios ", Node.field "Name"] } rfl rfl rfl rfl

/-- C2: a key absent from the language and from every fallback resolves to
the key itself, whatever the data argument. -/
theorem C2_missing_key_returns_key (l : Language) (k : String)
    (args : List TemplateData)
    (h : ∀ lang ∈ l :: l.fallbacks, lang.Get k = none) :
    l.T k args = k := by
  have hnone := findTranslation_eq_none _ _ h
  unfold Language.T
  simp [hnone]

/-- Witness for C2: no language of the chain has the unknown key. -/
theorem C2_witness : deW.T "unknown_key" [[("Name", "Christian")]] = "unknown_key" :=
  C2_missing_key_returns_key deW "unknown_key" [[("Name", "Christian")]] (by decide)

/-- C3: adding a translation whose text has no placeholder and resolving
it with no data argument returns exactly that text. -/
theorem C3_literal_translation_returned (l l2 : Language) (k t : String)
    (tr : Translation)
    (hnp : (splitOpen t.toList).2 = none)
    (hadd : l.Add k t = .ok l2 tr) :
    l2.T k [] = t := by
  have hp : parseTemplate t = .ok [Node.text t] := parseTemplate_no_placeholder t hnp
  unfold Language.Add at hadd
  rw [hp] at hadd
  injection hadd with h1 h2
  subst h1
  subst h2
  unfold Language.T
  simp [Language.fallbacks, findTranslation, Language.Get, Language.translations,
        mapGet_mapSet_self, executeTemplate, execNode, str_append_empty]

/-- Witness for C3: adding the literal text Hallo and resolving it. -/
theorem C3_witness :
    (Language.mk "de" "German" [] [("greeting", { other := [Node.text "Hallo"] })]).T "greeting" [] = "Hallo" :=
  C3_literal_translation_returned (NewLanguage "de" "German") _ "greeting" "Hallo"
    { other := [Node.text "Hallo"] } rfl rfl

/-- C4 counterexample: the claim says Add surfaces a template parse
failure as a recoverable error result and does not abort by panicking;
on the unterminated action the method panics — the Go signature has no
error result at all, and the model records the panic as such. -/
theorem C4_counterexample_add_panics :
    (NewLanguage "de" "German").Add "greeting" "\x7b\x7b"
      = AddResult.panicked "languages.Add: Parsing translation template failed: unclosed action" := by
  rfl

/-- C4 as amended: on a template parse failure, Add surfaces the failure
synchronously by panicking (it is not returned as a recoverable error
value), and the translations map of the language is untouched for that
key: the panic carries no updated language, and a caller that recovers
still holds the language exactly as it was. -/
theorem C4_amended_add_panics_on_parse_error (l : Language) (k t e : String)
    (hparse : parseTemplate t = .error e) :
    l.Add k t = AddResult.panicked ("languages.Add: Parsing translation template failed: " ++ e) := by
  unfold Language.Add
  rw [hparse]

/-- Witness for the amended C4 at the unterminated action. -/
theorem C4_amended_witness :
    (NewLanguage "en" "English").Add "k" "\x7b\x7bBad"
      = AddResult.panicked ("languages.Add: Parsing translation template failed: " ++ "unclosed action") :=
  C4_amended_add_panics_on_parse_error (NewLanguage "en" "English") "k" "\x7b\x7bBad"
    "unclosed action" rfl

/-- C5: adding the same key twice replaces the first translation: Get
returns the translation of the second Add, and resolving the key renders
the second translation. -/
theorem C5_second_add_wins (l l1 l2 : Language) (k t1 t2 : String)
    (tr1 tr2 : Translation) (args : List TemplateData)
    (_h1 : l.Add k t1 = .ok l1 tr1)
    (h2 : l1.Add k t2 = .ok l2 tr2) :
    l2.Get k = some tr2
  ∧ l2.T k args = executeTemplate tr2.other (args.headD []) := by
  unfold Language.Add at h2
  rcases hp2 : parseTemplate t2 with e2 | tp2
  · rw [hp2] at h2; cases h2
  · rw [hp2] at h2
    injection h2 with hl2 htr2
    subst hl2
    subst htr2
    constructor
    · show mapGet _ _ = _
      simp [Language.translations, mapGet_mapSet_self]
    · unfold Language.T
      simp [Language.fallbacks, findTranslation, Language.Get, Language.translations,
            mapGet_mapSet_self]

/-- Witness for C5: the key k is set to one, then to two; the second
translation is the one observed. -/
theorem C5_witness :
    (Language.mk "de" "German" [] [("k", { other := [Node.text "two"] })]).Get "k"
      = some { other := [Node.text "two"] }
  ∧ (Language.mk "de" "German" [] [("k", { other := [Node.text "two"] })]).T "k" []
      = executeTemplate [Node.text "two"] (([] : List TemplateData).headD []) :=
  C5_second_add_wins (NewLanguage "de" "German")
    (Language.mk "de" "German" [] [("k", { other := [Node.text "one"] })])
    (Language.mk "de" "German" [] [("k", { other := [Node.text "two"] })])
    "k" "one" "two" { other := [Node.text "one"] } { other := [Node.text "two"] } [] rfl rfl

/-- C6: resolving is idempotent and mutation free: running T a second
time with the same arguments on the state the first call leaves behind
yields the same string, the state after each call is the original
language, and the translations maps and fallback lists of every language
of the chain are unchanged. -/
theorem C6_resolve_idempotent_and_pure (l : Language) (k : String)
    (d : List TemplateData) :
    ((l.Tst k d).2.Tst k d).1 = (l.Tst k d).1
  ∧ (l.Tst k d).2 = l
  ∧ ((l.Tst k d).2.Tst k d).2 = l
  ∧ ((l.Tst k d).2 :: (l.Tst k d).2.fallbacks).map Language.translations
      = (l :: l.fallbacks).map Language.translations
  ∧ ((l.Tst k d).2 :: (l.Tst k d).2.fallbacks).map Language.fallbacks
      = (l :: l.fallbacks).map Language.fallbacks := by
  refine ⟨rfl, rfl, rfl, rfl, rfl⟩

/-- C7: FlashAll returns the pending flashes in the order AddFlash
appended them (FIFO), removes them from the session, and an immediately
following FlashAll returns an empty result; AddFlash appends at the
tail. -/
theorem C7_flashall_drains_fifo (s : Session) (m : String) (ty : List String) :
    (s.FlashAll).1 = s.flashes
  ∧ ((s.FlashAll).2.FlashAll).1 = []
  ∧ (s.FlashAll).2.flashes = []
  ∧ ((s.AddFlash m ty).FlashAll).1 = s.flashes ++ [{ message := m, type := ty.headD "" }] := by
  unfold Session.FlashAll Session.AddFlash
  rcases hf : s.flashes with _ | ⟨f0, rest⟩ <;> simp [hf]

/-- One more field in front of a failing field list keeps Parse failing:
every branch of the head processing either aborts with its own error or
reaches the failing tail. -/
theorem Parse_cons_error (head : String × List String)
    (rest : List (String × List String)) (e : String)
    (he : Parse rest = .error e) :
    ∃ e2, Parse (head :: rest) = .error e2 := by
  obtain ⟨tn, vals⟩ := head
  rcases hv : vals.isEmpty with _ | _
  · rcases hc : convertField tn vals with ec | fv
    · exact ⟨ec, by simp [Parse, hv, hc]⟩
    · exact ⟨e, by simp [Parse, hv, hc, he]⟩
  · exact ⟨e, by simp [Parse, hv, he]⟩

/-- A type name outside the switch falls through to the default branch,
whose error names the type. -/
theorem convertField_unsupported (tn : String) (vs : List String)
    (h : tn ∉ supportedTypeNames) :
    convertField tn vs = .error ("unsupported field type " ++ tn) := by
  have hdne : ∀ x ∈ supportedTypeNames, ¬ (tn = x) := fun x hx hEq => h (hEq ▸ hx)
  simp only [convertField,
    if_neg (hdne "bool" (by decide)),
    if_neg (hdne "float32" (by decide)),
    if_neg (hdne "float64" (by decide)),
    if_neg (hdne "int" (by decide)),
    if_neg (hdne "int8" (by decide)),
    if_neg (hdne "int16" (by decide)),
    if_neg (hdne "int32" (by decide)),
    if_neg (hdne "int64" (by decide)),
    if_neg (hdne "string" (by decide)),
    if_neg (hdne "uint" (by decide)),
    if_neg (hdne "uint8" (by decide)),
    if_neg (hdne "uint16" (by decide)),
    if_neg (hdne "uint32" (by decide)),
    if_neg (hdne "uint64" (by decide)),
    if_neg (hdne "[]bool" (by decide)),
    if_neg (hdne "[]float32" (by decide)),
    if_neg (hdne "[]float64" (by decide)),
    if_neg (hdne "[]int" (by decide)),
    if_neg (hdne "[]int8" (by decide)),
    if_neg (hdne "[]int16" (by decide)),
    if_neg (hdne "[]int32" (by decide)),
    if_neg (hdne "[]int64" (by decide)),
    if_neg (hdne "[]string" (by decide)),
    if_neg (hdne "[]uint" (by decide)),
    if_neg (hdne "[]uint8" (by decide)),
    if_neg (hdne "[]uint16" (by decide)),
    if_neg (hdne "[]uint32" (by decide)),
    if_neg (hdne "[]uint64" (by decide))]

/-- C8: the claim says every numeric field, scalar or slice, is parsed
per its declared width so that unrepresentable values yield an error.
The scalar integer cases do behave that way, but the slice integer cases
call strconv.ParseFloat with the width in the bitSize slot, so a
non-integer string or a value beyond the element maximum is accepted and
silently converted instead of producing an error: the same value 1.5
errors as a scalar int but decodes as 1 in a slice of int, and 300
errors as a scalar int8 but is accepted for a slice of int8. -/
theorem C8_slice_numeric_not_width_checked :
    Parse [("[]int", ["1.5"])] = .ok [some (FieldValue.il [1])]
  ∧ Parse [("int", ["1.5"])] = .error "strconv.ParseInt: parsing 1.5: invalid syntax"
  ∧ (Parse [("[]int8", ["300"])]).isOk = true
  ∧ Parse [("int8", ["300"])] = .error "strconv.ParseInt: parsing 300: value out of range" := by
  exact ⟨by decide, by decide, by decide, by decide⟩

/-- C9 counterexample: the claim asserts that any destination struct
containing a field of unsupported type makes Parse return an error; a
field with no supplied parameter value is skipped before the type switch
runs, so Parse succeeds on a struct whose only field has an unsupported
type but no matching parameter. -/
theorem C9_counterexample_unsupported_field_skipped :
    Parse [("chan int", [])] = .ok [none]
  ∧ "chan int" ∉ supportedTypeNames := by
  exact ⟨by decide, by decide⟩

/-- C9 as amended: when at least one parameter value is supplied for a
field whose type is outside the supported set, Parse returns an error
(the switch default names the unsupported type; an earlier field may
fail first with its own error); Parse never panics — the embedding is a
total function into an error-returning result. -/
theorem C9_amended_unsupported_type_errors (fields : List (String × List String))
    (tn : String) (vs : List String)
    (hmem : (tn, vs) ∈ fields) (hunsup : tn ∉ supportedTypeNames) (hne : vs ≠ []) :
    (∃ e, Parse fields = .error e)
  ∧ convertField tn vs = .error ("unsupported field type " ++ tn) := by
  have hcf := convertField_unsupported tn vs hunsup
  refine ⟨?_, hcf⟩
  have hv : vs.isEmpty = false := by
    cases vs with
    | nil => cases hne rfl
    | cons a l => rfl
  revert hmem
  induction fields with
  | nil => intro hmem; cases hmem
  | cons head rest ih =>
    intro hmem
    rcases List.mem_cons.mp hmem with heq | hmem2
    · subst heq
      refine ⟨"unsupported field type " ++ tn, ?_⟩
      simp [Parse, hv, hcf]
    · obtain ⟨e, he⟩ := ih hmem2
      exact Parse_cons_error head rest e he

/-- Witness for the amended C9: a channel-typed field with one supplied
value makes Parse fail, and the switch default names the type. -/
theorem C9_amended_witness :
    (∃ e, Parse [("chan int", ["x"])] = .error e)
  ∧ convertField "chan int" ["x"] = .error ("unsupported field type " ++ "chan int") :=
  C9_amended_unsupported_type_errors [("chan int", ["x"])] "chan int" ["x"]
    (by decide) (by decide) (by decide)

/-- C10: a supplied empty-string parameter for a numeric field, scalar
or slice element, is decoded as zero and Parse succeeds for that field:
the z helper turns the empty string into the numeral 0 before the
strconv call. -/
theorem C10_empty_value_decodes_zero (tn : String) (h : tn ∈ numericTypeNames) :
    Parse [(tn, [""])] = .ok [some (numericZero tn)] := by
  fin_cases h <;> decide

/-- Witness for C10 at the scalar int8 field. -/
theorem C10_witness : Parse [("int8", [""])] = .ok [some (numericZero "int8")] :=
  C10_empty_value_decodes_zero "int8" (by decide)

end GoPackages
